import Mathlib

/-!
Verification of the LoRaWAN protocol core: a shallow embedding of the
frame/beacon codecs, the MIC construction and the per-region channel-mask
rules, with theorems checking the natural-language specification against
the code.

Byte strings are modelled as `List Nat` with every element below 256.
Machine integers are `Nat` with explicit `% 2 ^ w` or masking where the
source relies on a fixed width.  Fallible operations return `Except`;
operations that may panic in the source (out-of-bounds slice indexing,
`unwrap`, `todo!`) additionally return `Option`, with `none` standing for
a panic.
-/

set_option maxRecDepth 4096

namespace LoraWan

/-- Decidable equality for `Except`, needed to evaluate the embedded
fallible operations on concrete inputs. -/
instance {ε α : Type} [DecidableEq ε] [DecidableEq α] : DecidableEq (Except ε α) := fun x y =>
  match x, y with
  | .ok a, .ok b =>
    if h : a = b then isTrue (by rw [h]) else isFalse (by simp [h])
  | .error a, .error b =>
    if h : a = b then isTrue (by rw [h]) else isFalse (by simp [h])
  | .ok _, .error _ => isFalse (by simp)
  | .error _, .ok _ => isFalse (by simp)

/-! ## Little-endian integer codec (src/serde.rs, src/beacon.rs) -/

/-- Source `u24_from_le_bytes`: `(b[2] << 16) | (b[1] << 8) | b[0]`. -/
def u24FromLeBytes (b : List Nat) : Nat :=
  (b.getD 2 0 <<< 16) ||| (b.getD 1 0 <<< 8) ||| b.getD 0 0

/-- Little-endian 16-bit read, as `u16::from_le_bytes` on a two-byte slice. -/
def u16FromLeBytes (b : List Nat) : Nat :=
  b.getD 0 0 + 256 * b.getD 1 0

/-- Little-endian 32-bit read, as `u32::from_le_bytes` on a four-byte slice. -/
def u32FromLeBytes (b : List Nat) : Nat :=
  b.getD 0 0 + 256 * b.getD 1 0 + 65536 * b.getD 2 0 + 16777216 * b.getD 3 0

/-- Rust slice indexing `&l[s..e]`: `some` of the sub-slice when the bounds
are in range, `none` (a panic) otherwise. -/
def slice? (l : List Nat) (s e : Nat) : Option (List Nat) :=
  if s ≤ e ∧ e ≤ l.length then some ((l.drop s).take (e - s)) else none

/-! ## Band rules: channel-mask application

`Us915::channel_mask_apply` (src/parameters/us915.rs) and
`Eu868::channel_mask_apply` (src/parameters/eu863.rs).  The `u8` control
byte, the `u16` channel mask and the `u128` current mask are `Nat`s that
callers keep below their respective widths; no intermediate value can
exceed `2 ^ 128` for such inputs, so no wrap-around masking is needed. -/

/-- Body of the `for i in 0..7` loop in the `cntl = 5` arm of
`Us915::channel_mask_apply`: `m = 0xFFFF << (i*16)`, then
`if i & channel_mask != 0 { mask |= m } else { mask &= m }`. -/
def us915Cntl5Step (cm : Nat) (mask : Nat) (i : Nat) : Nat :=
  let m := 65535 <<< (i * 16)
  if i &&& cm ≠ 0 then mask ||| m else mask &&& m

/-- Source `Us915::channel_mask_apply(channel_mask_cntl, channel_mask,
current_channel_mask)`, by cases on the control byte exactly as the
`match` in the source. -/
def us915ChannelMaskApply (cntl cm cur : Nat) : Except Unit Nat :=
  if cntl ≤ 4 then
    let shift := cntl * 16
    let mask := cur &&& (65535 <<< shift)
    Except.ok (mask ||| (cm <<< shift))
  else if cntl = 5 then
    Except.ok ((List.range 7).foldl (us915Cntl5Step cm) cur)
  else if cntl ≤ 7 then
    let mask125khz := if cntl = 6 then 2 ^ 64 - 1 else 0
    Except.ok (mask125khz ||| (cm <<< 64))
  else
    Except.error ()

/-- Source `Eu868::channel_mask_apply`: `cntl = 0` keeps only the low 16
bits of the current mask and ORs the channel mask in; `cntl = 6` returns
`u128::MAX`; everything else is an error. -/
def eu868ChannelMaskApply (cntl cm cur : Nat) : Except Unit Nat :=
  if cntl = 0 then
    Except.ok ((cur &&& 65535) ||| cm)
  else if cntl = 6 then
    Except.ok (2 ^ 128 - 1)
  else
    Except.error ()

/-! ## Spreading factors and beacon sizes (src/lib.rs) -/

/-- Source `Sf`: the five spreading factors SF8..SF12. -/
inductive Sf
  | sf8
  | sf9
  | sf10
  | sf11
  | sf12
deriving DecidableEq

/-- Source `Sf::beacon_rfu1_bytes`. -/
def beaconRfu1Bytes : Sf → Nat
  | .sf8 => 0
  | .sf9 => 1
  | .sf10 => 2
  | .sf11 => 3
  | .sf12 => 4

/-- Source `Sf::beacon_rfu2_bytes`. -/
def beaconRfu2Bytes : Sf → Nat
  | .sf8 => 3
  | .sf9 => 0
  | .sf10 => 1
  | .sf11 => 2
  | .sf12 => 3

/-- Source `BEACON_BASE_SIZE = 1 + 4 + 2 + 7 + 2`. -/
def beaconBaseSize : Nat := 1 + 4 + 2 + 7 + 2

/-- Source `Sf::beacon_bytes`. -/
def beaconBytes (sf : Sf) : Nat :=
  beaconBaseSize + beaconRfu1Bytes sf + beaconRfu2Bytes sf

/-! ## CRC-16 (external crate `crc_0x8810`, constant `CRC_16_LORA`)

Modelled from the spec: the crate is not part of this repository; the
spec identifies the checksum as the CRC-16/LoRa variant, CRC-16/CCITT
with polynomial `0x1021`, zero initial value, no reflection and no
output XOR, most-significant bit first.  The model is validated by the
beacon known-answer vectors below. -/

/-- One bit step of the CRC-16 computation: shift left, and XOR the
polynomial `0x1021` in when the bit shifted out was set. -/
def crc16Round (c : Nat) : Nat :=
  if c.testBit 15 then ((c <<< 1) % 65536) ^^^ 4129 else (c <<< 1) % 65536

/-- One byte step: XOR the byte into the high half of the state and run
eight bit steps. -/
def crc16Byte (c b : Nat) : Nat :=
  crc16Round (crc16Round (crc16Round (crc16Round
    (crc16Round (crc16Round (crc16Round (crc16Round (c ^^^ (b <<< 8)))))))))

/-- CRC-16/LoRa checksum of a byte string, initial state `0`. -/
def crc16 (l : List Nat) : Nat := l.foldl crc16Byte 0

/-! ## Beacon codec (src/beacon.rs) -/

/-- Source `Antenna`: GPS antenna index 0, 1 or 2. -/
inductive Antenna
  | first
  | second
  | third
deriving DecidableEq

/-- Source `InfoDesc`, decoded from the leading GwSpecific byte. -/
inductive InfoDesc
  | gpsCoordinate (antenna : Antenna)
  | netIdAndGatewayId
  | rfuDesc (infoDesc : Nat)
  | networkSpecific (infoDesc : Nat)
deriving DecidableEq

/-- Source `InfoDesc::from_byte`. -/
def infoDescFromByte (b : Nat) : InfoDesc :=
  if b = 0 then .gpsCoordinate .first
  else if b = 1 then .gpsCoordinate .second
  else if b = 2 then .gpsCoordinate .third
  else if b = 3 then .netIdAndGatewayId
  else if b ≤ 127 then .rfuDesc b
  else .networkSpecific b

/-- Source `GwSpecificKind`. -/
inductive GwSpecificKind
  | gps (antenna : Antenna) (lat long : Nat)
  | netIdAndGatewayId (netId gatewayId : Nat)
  | rfuKind (infoDesc : Nat) (info : List Nat)
  | networkSpecific (infoDesc : Nat) (info : List Nat)
deriving DecidableEq

/-- Source `GwSpecificKind::from_bytes` on a seven-byte array. -/
def gwSpecificFromBytes (b : List Nat) : GwSpecificKind :=
  match infoDescFromByte (b.getD 0 0) with
  | .gpsCoordinate antenna =>
    .gps antenna (u24FromLeBytes ((b.drop 1).take 3)) (u24FromLeBytes ((b.drop 4).take 3))
  | .networkSpecific d => .networkSpecific d (b.drop 1)
  | .netIdAndGatewayId =>
    .netIdAndGatewayId (u24FromLeBytes ((b.drop 1).take 3)) (u24FromLeBytes ((b.drop 4).take 3))
  | .rfuDesc d => .rfuKind d (b.drop 1)

/-- Source `Beacon`: the decoded parameter byte, GPS time and
gateway-specific part. -/
structure Beacon where
  param : Nat
  time : Nat
  gwSpecific : GwSpecificKind
deriving DecidableEq

/-- Source `beacon::Error`. -/
inductive BeaconError
  | wrongSize (need actual : Nat)
  | crc1Wrong
  | crc2Wrong
deriving DecidableEq

/-- Second half of `Beacon::parse_beacon`, from the GwSpecific read
onward (split from `parseBeacon` only to keep the nesting shallow):
CRC2 region read, CRC2 comparison and construction of the result. -/
def parseBeaconGw (sf : Sf) (bytes rem : List Nat) (param : Nat) (timeB : List Nat) :
    Option (Except BeaconError Beacon) :=
  (slice? rem 0 7).bind fun gwB =>
  (slice? rem 7 rem.length).bind fun rem =>
  (slice? rem 0 (beaconRfu2Bytes sf)).bind fun _ =>
  (slice? rem (beaconRfu2Bytes sf) rem.length).bind fun rem =>
  (if rem.length = 2 then some (u16FromLeBytes rem) else none).bind fun crc2 =>
  (slice? bytes (beaconRfu1Bytes sf + 1 + 4 + 2)
      (beaconRfu1Bytes sf + 1 + 4 + 2 + 7 + beaconRfu2Bytes sf)).bind fun crc2Region =>
  if crc2 ≠ crc16 crc2Region then
    some (Except.error BeaconError.crc2Wrong)
  else
    some (Except.ok { param := param
                      time := u32FromLeBytes timeB
                      gwSpecific := gwSpecificFromBytes gwB })

/-- Source `Beacon::parse_beacon`, translated step by step; every slice
index and `unwrap` of the source is a bind in the `Option` monad, so a
`none` result would be a panic. -/
def parseBeacon (sf : Sf) (bytes : List Nat) : Option (Except BeaconError Beacon) :=
  if bytes.length ≠ beaconBytes sf then
    some (Except.error (BeaconError.wrongSize (beaconBytes sf) bytes.length))
  else
    (slice? bytes 0 (beaconRfu1Bytes sf)).bind fun _ =>
    (slice? bytes (beaconRfu1Bytes sf) bytes.length).bind fun rem =>
    rem[0]?.bind fun param =>
    (slice? rem 1 rem.length).bind fun rem =>
    (slice? rem 0 4).bind fun timeB =>
    (slice? rem 4 rem.length).bind fun rem =>
    (slice? rem 0 2).bind fun crc1B =>
    (slice? rem 2 rem.length).bind fun rem =>
    (slice? bytes 0 (beaconRfu1Bytes sf + 1 + 4)).bind fun crc1Region =>
    if u16FromLeBytes crc1B ≠ crc16 crc1Region then
      some (Except.error BeaconError.crc1Wrong)
    else
      parseBeaconGw sf bytes rem param timeB

/-- Closed form of `parseBeacon` on panic-free inputs: the same size
check, field reads and CRC comparisons written with direct offsets into
the input. -/
def parseBeaconSpec (sf : Sf) (bytes : List Nat) : Except BeaconError Beacon :=
  let need := beaconBytes sf
  if bytes.length ≠ need then Except.error (BeaconError.wrongSize need bytes.length)
  else
    let r1 := beaconRfu1Bytes sf
    let wire1 := u16FromLeBytes ((bytes.drop (r1 + 5)).take 2)
    let calc1 := crc16 (bytes.take (r1 + 5))
    if wire1 ≠ calc1 then Except.error BeaconError.crc1Wrong
    else
      let r2 := beaconRfu2Bytes sf
      let wire2 := u16FromLeBytes (bytes.drop (r1 + 14 + r2))
      let calc2 := crc16 ((bytes.drop (r1 + 7)).take (7 + r2))
      if wire2 ≠ calc2 then Except.error BeaconError.crc2Wrong
      else
        Except.ok { param := bytes.getD r1 0
                    time := u32FromLeBytes ((bytes.drop (r1 + 1)).take 4)
                    gwSpecific := gwSpecificFromBytes ((bytes.drop (r1 + 7)).take 7) }

/-- Byte string that is zero except for the single value `v` at index
`j`; XORing it into a message of length `L` flips exactly the bits of
`v` inside byte `j`. -/
def unitMsg (L j v : Nat) : List Nat :=
  (List.range L).map fun t => if t = j then v else 0

/-! ## MAC frame codec (src/mac_frame.rs) -/

/-- Source `FrameType`: the three `FType` bits of the MAC header. -/
inductive FrameType
  | joinRequest
  | joinAccept
  | unconfirmedDataUplink
  | unconfirmedDataDownlink
  | confirmedDataUplink
  | confirmedDataDownlink
  | rfuType
  | proprietary
deriving DecidableEq

/-- Decode of the three-bit `FType` field; all eight values are defined. -/
def frameTypeOfBits : Nat → FrameType
  | 0 => .joinRequest
  | 1 => .joinAccept
  | 2 => .unconfirmedDataUplink
  | 3 => .unconfirmedDataDownlink
  | 4 => .confirmedDataUplink
  | 5 => .confirmedDataDownlink
  | 6 => .rfuType
  | _ => .proprietary

/-- Source `MacHeader` bitfield: `ftype` in bits 0-2, `rfu` in bits 3-5,
`major` in bits 6-7 (the first declared field is least significant). -/
structure MacHeader where
  ftype : FrameType
  rfu : Nat
  major : Nat
deriving DecidableEq

/-- Source `MacHeader::from_bytes` on the one-byte array. -/
def macHeaderOfByte (b : Nat) : MacHeader :=
  { ftype := frameTypeOfBits (b % 8), rfu := b / 8 % 8, major := b / 64 % 4 }

/-- Source `PhyPayloadDecodeError`. -/
inductive PhyPayloadDecodeError
  | smallerThanMinSize (haveLen needLen : Nat)
deriving DecidableEq

/-- Source `PhyPayload::from_bytes`: only the minimum-size check
`have < 1 + 7 + 4`; the byte buffer itself is kept as the payload
value. -/
def phyFromBytes (b : List Nat) : Except PhyPayloadDecodeError (List Nat) :=
  if b.length < 1 + 7 + 4 then
    Except.error (.smallerThanMinSize b.length (1 + 7 + 4))
  else
    Except.ok b

/-- Source `PhyPayload::mac_header`: decode of `bytes[0..1]`; `none` is
the panic on an empty buffer. -/
def macHeader? (b : List Nat) : Option MacHeader :=
  (slice? b 0 1).map fun s => macHeaderOfByte (s.getD 0 0)

/-- Source `PhyPayload::payload_bytes`: `&bytes[1..len-4]`; `none` is
the panic when the range is out of bounds (the `len - 4` subtraction
underflows for `len < 4`). -/
def payloadBytes? (b : List Nat) : Option (List Nat) :=
  if b.length < 4 then none else slice? b 1 (b.length - 4)

/-- Source `PhyPayload::mic`: the last four bytes, `&bytes[len-4..]`. -/
def mic? (b : List Nat) : Option (List Nat) :=
  if b.length < 4 then none else slice? b (b.length - 4) b.length

/-- Source `JoinRequestParseError`. -/
inductive JoinRequestParseError
  | sizeMismatch (haveLen needLen : Nat)
deriving DecidableEq

/-- Source `JoinAcceptParseError` (carries only the actual length). -/
inductive JoinAcceptParseError
  | sizeMismatch (haveLen : Nat)
deriving DecidableEq

/-- Source `PayloadParseError` with its two `From` conversions. -/
inductive PayloadParseError
  | unknownMajor (major : Nat)
  | joinRequestParseError (e : JoinRequestParseError)
  | joinAcceptParseError (e : JoinAcceptParseError)
deriving DecidableEq

/-- Source `JoinRequest::from_bytes`: the payload region must be exactly
`8 + 8 + 2` bytes. -/
def joinRequestFromBytes (b : List Nat) : Except JoinRequestParseError (List Nat) :=
  if b.length ≠ 8 + 8 + 2 then
    Except.error (.sizeMismatch b.length (8 + 8 + 2))
  else
    Except.ok b

/-- Source `JoinAccept::from_bytes`: the payload region must be exactly
12 or 28 bytes. -/
def joinAcceptFromBytes (b : List Nat) : Except JoinAcceptParseError (List Nat) :=
  if 3 + 3 + 4 + 1 + 1 ≠ b.length ∧ 3 + 3 + 4 + 1 + 1 + 16 ≠ b.length then
    Except.error (.sizeMismatch b.length)
  else
    Except.ok b

/-- Source `JoinAccept::cf_list`: `None` unless the length equals 12, in
which case the (empty) tail `&bytes[12..]` is returned. -/
def cfList (b : List Nat) : Option (List Nat) :=
  if b.length ≠ 3 + 3 + 4 + 1 + 1 then none
  else some (b.drop (3 + 3 + 4 + 1 + 1))

/-- Source `Payload`: the three payload views. -/
inductive Payload
  | macPayload (bytes : List Nat)
  | joinRequest (bytes : List Nat)
  | joinAccept (bytes : List Nat)
deriving DecidableEq

/-- The `JoinRequest::from_bytes(bytes)?` step of `payload`, with the
`From` conversion of the error. -/
def joinRequestResult (bytes : List Nat) : Except PayloadParseError Payload :=
  match joinRequestFromBytes bytes with
  | .ok jr => Except.ok (.joinRequest jr)
  | .error e => Except.error (.joinRequestParseError e)

/-- The `JoinAccept::from_bytes(bytes)?` step of `payload`, with the
`From` conversion of the error. -/
def joinAcceptResult (bytes : List Nat) : Except PayloadParseError Payload :=
  match joinAcceptFromBytes bytes with
  | .ok ja => Except.ok (.joinAccept ja)
  | .error e => Except.error (.joinAcceptParseError e)

/-- Source `PhyPayload::payload`: reject a nonzero major version, then
dispatch on the frame type; the `Option` layer carries the potential
panics of `mac_header` and `payload_bytes`. -/
def payload? (b : List Nat) : Option (Except PayloadParseError Payload) :=
  (macHeader? b).bind fun mh =>
  if mh.major ≠ 0 then some (Except.error (.unknownMajor mh.major)) else
  (payloadBytes? b).bind fun bytes =>
  match mh.ftype with
  | .joinRequest => some (joinRequestResult bytes)
  | .joinAccept => some (joinAcceptResult bytes)
  | _ => some (Except.ok (.macPayload bytes))

/-! ## AES-128 and CMAC (external crates `aes` and `cmac`)

Modelled from the spec: the two crates are not part of this repository;
the spec names the construction AES-128-CMAC with the MIC being the
first four bytes of the tag.  AES-128 follows FIPS-197 and CMAC follows
RFC 4493; the model is validated by the Join-Request known-answer
vector below.  Blocks and keys are lists of 16 bytes. -/

/-- AES S-box as a table of the 256 byte values. -/
def sbox : List Nat := [
  99, 124, 119, 123, 242, 107, 111, 197, 48, 1, 103, 43, 254, 215, 171, 118,
  202, 130, 201, 125, 250, 89, 71, 240, 173, 212, 162, 175, 156, 164, 114, 192,
  183, 253, 147, 38, 54, 63, 247, 204, 52, 165, 229, 241, 113, 216, 49, 21,
  4, 199, 35, 195, 24, 150, 5, 154, 7, 18, 128, 226, 235, 39, 178, 117,
  9, 131, 44, 26, 27, 110, 90, 160, 82, 59, 214, 179, 41, 227, 47, 132,
  83, 209, 0, 237, 32, 252, 177, 91, 106, 203, 190, 57, 74, 76, 88, 207,
  208, 239, 170, 251, 67, 77, 51, 133, 69, 249, 2, 127, 80, 60, 159, 168,
  81, 163, 64, 143, 146, 157, 56, 245, 188, 182, 218, 33, 16, 255, 243, 210,
  205, 12, 19, 236, 95, 151, 68, 23, 196, 167, 126, 61, 100, 93, 25, 115,
  96, 129, 79, 220, 34, 42, 144, 136, 70, 238, 184, 20, 222, 94, 11, 219,
  224, 50, 58, 10, 73, 6, 36, 92, 194, 211, 172, 98, 145, 149, 228, 121,
  231, 200, 55, 109, 141, 213, 78, 169, 108, 86, 244, 234, 101, 122, 174, 8,
  186, 120, 37, 46, 28, 166, 180, 198, 232, 221, 116, 31, 75, 189, 139, 138,
  112, 62, 181, 102, 72, 3, 246, 14, 97, 53, 87, 185, 134, 193, 29, 158,
  225, 248, 152, 17, 105, 217, 142, 148, 155, 30, 135, 233, 206, 85, 40, 223,
  140, 161, 137, 13, 191, 230, 66, 104, 65, 153, 45, 15, 176, 84, 187, 22]

/-- The S-box packed into one natural number, byte `i` at bit offset
`8 * i`, so that lookups are single shift-and-mask operations. -/
def sboxPacked : Nat := 2869618975290639062594974519597816386035077209210385677284518162336985023502962151465775969507961862820568736543004676439868535775640188584098917533413284844376797297285941524888791401501466624530423689326528054213168201056672989590893583853414110162539122864583953358348775951166211353578440977400428507475679327181038682772945817200201960445064847785221508011893952350688324234443749897213621340677040612747745615276448919507935121141307752692835344166708617454322778699219895865633266409040561742768581056182730443599545881830075941537620590442514083341749674612746994879540562701631131184186066652929592955206755

/-- S-box lookup. -/
def sb (x : Nat) : Nat := (sboxPacked >>> (8 * x)) &&& 255

/-- Multiplication by `x` in GF(2^8) with the AES reduction polynomial. -/
def xtime (b : Nat) : Nat := if 128 ≤ b then ((b * 2) % 256) ^^^ 27 else b * 2

/-- Multiplication by `x + 1` in GF(2^8). -/
def mul3 (b : Nat) : Nat := xtime b ^^^ b

/-- Byte of a state, with default 0. -/
def gByte (s : List Nat) (i : Nat) : Nat := s.getD i 0

/-- AES SubBytes on a 16-byte state in input order. -/
def subBytes (s : List Nat) : List Nat := s.map sb

/-- AES ShiftRows on a 16-byte state in input order (byte `4*c + r` is
row `r`, column `c`). -/
def shiftRows (s : List Nat) : List Nat :=
  [gByte s 0, gByte s 5, gByte s 10, gByte s 15,
   gByte s 4, gByte s 9, gByte s 14, gByte s 3,
   gByte s 8, gByte s 13, gByte s 2, gByte s 7,
   gByte s 12, gByte s 1, gByte s 6, gByte s 11]

/-- AES MixColumns on one column. -/
def mixColumn (a0 a1 a2 a3 : Nat) : List Nat :=
  [xtime a0 ^^^ mul3 a1 ^^^ a2 ^^^ a3,
   a0 ^^^ xtime a1 ^^^ mul3 a2 ^^^ a3,
   a0 ^^^ a1 ^^^ xtime a2 ^^^ mul3 a3,
   mul3 a0 ^^^ a1 ^^^ a2 ^^^ xtime a3]

/-- AES MixColumns on the full state. -/
def mixColumns (s : List Nat) : List Nat :=
  mixColumn (gByte s 0) (gByte s 1) (gByte s 2) (gByte s 3)
    ++ mixColumn (gByte s 4) (gByte s 5) (gByte s 6) (gByte s 7)
    ++ mixColumn (gByte s 8) (gByte s 9) (gByte s 10) (gByte s 11)
    ++ mixColumn (gByte s 12) (gByte s 13) (gByte s 14) (gByte s 15)

/-- Bytewise XOR of two byte strings. -/
def zipXor (a b : List Nat) : List Nat := List.zipWith (fun x y => x ^^^ y) a b

/-- AES round constants. -/
def rcon : List Nat := [1, 2, 4, 8, 16, 32, 64, 128, 27, 54]

/-- One step of the AES-128 key schedule, appending word `i` given the
words `0..i-1`. -/
def keyExpandStep (ws : List (List Nat)) : List (List Nat) :=
  let i := ws.length
  let prev := ws.getD (i - 1) []
  let t :=
    if i % 4 = 0 then
      let r := prev.drop 1 ++ prev.take 1
      let s := r.map sb
      [gByte s 0 ^^^ rcon.getD (i / 4 - 1) 0, gByte s 1, gByte s 2, gByte s 3]
    else prev
  ws ++ [zipXor (ws.getD (i - 4) []) t]

/-- The 44 words of the AES-128 key schedule. -/
def keyWords (key : List Nat) : List (List Nat) :=
  (List.range 40).foldl (fun ws _ => keyExpandStep ws)
    [key.take 4, (key.drop 4).take 4, (key.drop 8).take 4, (key.drop 12).take 4]

/-- Round key `r` as 16 bytes. -/
def roundKey (ws : List (List Nat)) (r : Nat) : List Nat :=
  ws.getD (4 * r) [] ++ ws.getD (4 * r + 1) [] ++ ws.getD (4 * r + 2) []
    ++ ws.getD (4 * r + 3) []

/-- AES-128 block encryption (FIPS-197). -/
def aesEncrypt (key block : List Nat) : List Nat :=
  let ws := keyWords key
  let s0 := zipXor block (roundKey ws 0)
  let sMain := (List.range 9).foldl
    (fun s r => zipXor (mixColumns (shiftRows (subBytes s))) (roundKey ws (r + 1))) s0
  zipXor (shiftRows (subBytes sMain)) (roundKey ws 10)

/-- Left shift by one bit of a 16-byte string viewed as a 128-bit
big-endian integer. -/
def shl1 (b : List Nat) : List Nat :=
  (List.range 16).map fun i => ((b.getD i 0 * 2) % 256) ^^^ (b.getD (i + 1) 0 / 128)

/-- CMAC subkey doubling (RFC 4493): shift left one bit and XOR `0x87`
into the last byte when the dropped bit was set. -/
def cmacDbl (b : List Nat) : List Nat :=
  let s := shl1 b
  if 128 ≤ b.getD 0 0 then s.take 15 ++ [s.getD 15 0 ^^^ 135] else s

/-- The all-zero block. -/
def zeroBlock : List Nat := List.replicate 16 0

/-- CMAC subkey K1. -/
def cmacK1 (key : List Nat) : List Nat := cmacDbl (aesEncrypt key zeroBlock)

/-- CMAC subkey K2. -/
def cmacK2 (key : List Nat) : List Nat := cmacDbl (cmacK1 key)

/-- CMAC padding of an incomplete final block: `0x80` then zeros. -/
def cmacPad (l : List Nat) : List Nat := l ++ 128 :: List.replicate (15 - l.length) 0

/-- CMAC final block: XOR K1 into a complete final block, or K2 into a
padded incomplete one, then encrypt. -/
def cmacLast (key x last : List Nat) : List Nat :=
  if last.length = 16 then aesEncrypt key (zipXor x (zipXor last (cmacK1 key)))
  else aesEncrypt key (zipXor x (zipXor (cmacPad last) (cmacK2 key)))

/-- CBC-MAC loop of CMAC; the fuel argument only bounds the recursion
and is at least the number of 16-byte blocks whenever it starts as the
message length. -/
def cmacGo (key : List Nat) : Nat → List Nat → List Nat → List Nat
  | 0, x, msg => cmacLast key x msg
  | fuel + 1, x, msg =>
    if 16 < msg.length then
      cmacGo key fuel (aesEncrypt key (zipXor x (msg.take 16))) (msg.drop 16)
    else cmacLast key x msg

/-- AES-128-CMAC tag (16 bytes) of a message. -/
def cmacTag (key msg : List Nat) : List Nat := cmacGo key msg.length zeroBlock msg

/-- Source `PhyPayload::mic_expected`: for Join-Request and Join-Accept
frames, the first four bytes of the CMAC over all frame bytes except the
four-byte MIC trailer; for every other frame type the source is
`todo!()`, a panic, hence `none`.  `Cmac::new_from_slice` panics unless
the key is 16 bytes. -/
def micExpected? (appKey b : List Nat) : Option (List Nat) :=
  (macHeader? b).bind fun mh =>
  match mh.ftype with
  | .joinRequest =>
    if appKey.length ≠ 16 then none
    else if b.length < 4 then none
    else some ((cmacTag appKey (b.take (b.length - 4))).take 4)
  | .joinAccept =>
    if appKey.length ≠ 16 then none
    else if b.length < 4 then none
    else some ((cmacTag appKey (b.take (b.length - 4))).take 4)
  | _ => none

/-! ## The beacon parser never panics and agrees with its closed form -/

theorem slice?_of_le {l : List Nat} {s e : Nat} (h1 : s ≤ e) (h2 : e ≤ l.length) :
    slice? l s e = some ((l.drop s).take (e - s)) := by
  unfold slice?
  rw [if_pos ⟨h1, h2⟩]

theorem slice?_to_end {l : List Nat} {s : Nat} (h : s ≤ l.length) :
    slice? l s l.length = some (l.drop s) := by
  rw [slice?_of_le h le_rfl, List.take_of_length_le (by rw [List.length_drop])]

theorem getElem?_eq_some_getD {l : List Nat} {i : Nat} (h : i < l.length) :
    l[i]? = some (l.getD i 0) := by
  rw [List.getElem?_eq_getElem h, List.getD_eq_getElem l 0 h]

theorem getD_drop (l : List Nat) (n m : Nat) :
    (l.drop n).getD m 0 = l.getD (n + m) 0 := by
  rw [List.getD_eq_getElem?_getD, List.getD_eq_getElem?_getD, List.getElem?_drop]

/-- Bridge: `parseBeacon` never hits a panic path and computes exactly
the closed-form `parseBeaconSpec` on every input. -/
theorem parseBeacon_eq_spec (sf : Sf) (bytes : List Nat) :
    parseBeacon sf bytes = some (parseBeaconSpec sf bytes) := by
  by_cases hlen : bytes.length = beaconBytes sf
  · have hbase : beaconBytes sf = 16 + beaconRfu1Bytes sf + beaconRfu2Bytes sf := by
      cases sf <;> rfl
    unfold parseBeacon parseBeaconSpec
    rw [if_neg (by simp [hlen]), if_neg (by simp [hlen])]
    rw [slice?_of_le (Nat.zero_le _) (by omega),
      slice?_to_end (by omega)]
    simp only [Option.some_bind]
    rw [getElem?_eq_some_getD (by rw [List.length_drop]; omega)]
    simp only [Option.some_bind]
    rw [slice?_to_end (by rw [List.length_drop]; omega)]
    simp only [Option.some_bind, List.drop_drop]
    rw [slice?_of_le (Nat.zero_le _) (by rw [List.length_drop]; omega)]
    simp only [Option.some_bind, List.drop_zero]
    rw [slice?_to_end (by rw [List.length_drop]; omega)]
    simp only [Option.some_bind, List.drop_drop]
    rw [slice?_of_le (Nat.zero_le _) (by rw [List.length_drop]; omega)]
    simp only [Option.some_bind, List.drop_zero]
    rw [slice?_to_end (by rw [List.length_drop]; omega)]
    simp only [Option.some_bind, List.drop_drop]
    rw [slice?_of_le (Nat.zero_le _) (by omega)]
    simp only [Option.some_bind, List.drop_zero, Nat.sub_zero]
    rw [getD_drop]
    have e1 : beaconRfu1Bytes sf + 0 = beaconRfu1Bytes sf := by omega
    have e2 : beaconRfu1Bytes sf + 1 + 4 = beaconRfu1Bytes sf + 5 := by omega
    rw [e1, e2]
    by_cases hc1 :
        u16FromLeBytes ((bytes.drop (beaconRfu1Bytes sf + 5)).take 2)
          ≠ crc16 (bytes.take (beaconRfu1Bytes sf + 5))
    · rw [if_pos hc1, if_pos hc1]
    · rw [if_neg hc1, if_neg hc1]
      unfold parseBeaconGw
      rw [slice?_of_le (Nat.zero_le _) (by rw [List.length_drop]; omega)]
      simp only [Option.some_bind, List.drop_zero, Nat.sub_zero]
      rw [slice?_to_end (by rw [List.length_drop]; omega)]
      simp only [Option.some_bind, List.drop_drop]
      rw [slice?_of_le (Nat.zero_le _) (by rw [List.length_drop]; omega)]
      simp only [Option.some_bind, List.drop_zero]
      rw [slice?_to_end (by rw [List.length_drop]; omega)]
      simp only [Option.some_bind, List.drop_drop]
      rw [if_pos (by rw [List.length_drop]; omega)]
      simp only [Option.some_bind]
      rw [slice?_of_le (by omega) (by omega)]
      simp only [Option.some_bind]
      have e3 : beaconRfu1Bytes sf + 5 + 2 = beaconRfu1Bytes sf + 7 := by omega
      have e4 : beaconRfu1Bytes sf + 5 + 2 + 7 = beaconRfu1Bytes sf + 14 := by omega
      have e5 : beaconRfu1Bytes sf + 7 + 7 = beaconRfu1Bytes sf + 14 := by omega
      have e6 : beaconRfu1Bytes sf + 14 + beaconRfu2Bytes sf
          - (beaconRfu1Bytes sf + 7) = 7 + beaconRfu2Bytes sf := by omega
      rw [e2, e3, e4, e5, e6, apply_ite some]
  · unfold parseBeacon parseBeaconSpec
    rw [if_pos hlen, if_pos hlen]

end LoraWan

namespace LoraWan

/-! ## Theorems for the channel-mask claims -/

/-- C1.  The claim describes the RP002 semantics the impl block cites: for
`cntl` in `0..=4` the 16-bit slice at offset `cntl*16` is replaced and
every other bit is preserved, and for `cntl = 5` bit `i` of the channel
mask sets or clears 16-bit group `i`.  The code instead ANDs the current
mask with the slice selector (zeroing every bit outside the slice and
OR-merging inside it), and the `cntl = 5` loop tests `i & channel_mask`
and ANDs with an unnegated group mask.  At `cntl = 0, channel_mask = 0,
current = 2^16` the code yields `0` where the claim requires `2^16`; at
`cntl = 5, channel_mask = 1, current = 0` it yields `0` where the claim
requires group 0 set (`0xFFFF`). -/
theorem us915_channel_mask_apply_bug :
    us915ChannelMaskApply 0 0 65536 = Except.ok 0
      ∧ (Except.ok 0 : Except Unit Nat) ≠ Except.ok 65536
      ∧ us915ChannelMaskApply 5 1 0 = Except.ok 0
      ∧ (Except.ok 0 : Except Unit Nat) ≠ Except.ok 65535
      ∧ us915ChannelMaskApply 6 3 0 = Except.ok (2 ^ 64 - 1 + 3 * 2 ^ 64)
      ∧ us915ChannelMaskApply 7 3 0 = Except.ok (3 * 2 ^ 64)
      ∧ us915ChannelMaskApply 8 0 0 = Except.error ()
      ∧ us915ChannelMaskApply 255 0 0 = Except.error () := by
  refine ⟨by decide, by decide, ?_, by decide, by decide, by decide, by decide, by decide⟩
  decide

/-- C2 counterexample.  The claim says `cntl = 0` preserves bits
`16..127` of the current mask; on `channel_mask = 0`,
`current = 2^16` the code returns `0`, not `2^16`. -/
theorem eu868_channel_mask_apply_cntl0_clears_high :
    eu868ChannelMaskApply 0 0 65536 = Except.ok 0
      ∧ (Except.ok 0 : Except Unit Nat) ≠ Except.ok 65536 := by
  exact ⟨by decide, by decide⟩

/-- C2, amended: for every 16-bit channel mask and every 128-bit current
mask, `cntl = 0` returns the low 16 bits of the current mask ORed with
the channel mask, clearing bits `16..127` (the result is below `2^16`);
`cntl = 6` returns all 128 bits set regardless of the inputs; every other
`cntl` returns a rejection error (the function is total, so it never
panics, and unsupported controls are never a silent success). -/
theorem eu868_channel_mask_apply_amended (cntl cm cur : Nat) (hcm : cm < 2 ^ 16) :
    (cntl = 0 →
      eu868ChannelMaskApply cntl cm cur = Except.ok ((cur % 2 ^ 16) ||| cm)
        ∧ (cur % 2 ^ 16) ||| cm < 2 ^ 16)
      ∧ (cntl = 6 → eu868ChannelMaskApply cntl cm cur = Except.ok (2 ^ 128 - 1))
      ∧ (cntl ≠ 0 → cntl ≠ 6 → eu868ChannelMaskApply cntl cm cur = Except.error ()) := by
  have hand : cur &&& 65535 = cur % 2 ^ 16 := by
    have h1 : (65535 : Nat) = 2 ^ 16 - 1 := by norm_num
    rw [h1]
    apply Nat.eq_of_testBit_eq
    intro i
    rw [Nat.testBit_and, Nat.testBit_mod_two_pow, Nat.testBit_two_pow_sub_one, Bool.and_comm]
  refine ⟨fun h0 => ?_, fun h6 => ?_, fun h0 h6 => ?_⟩
  · subst h0
    refine ⟨?_, Nat.or_lt_two_pow (Nat.mod_lt _ (by norm_num)) hcm⟩
    unfold eu868ChannelMaskApply
    rw [if_pos rfl, hand]
  · subst h6
    unfold eu868ChannelMaskApply
    rw [if_neg (by decide), if_pos rfl]
  · unfold eu868ChannelMaskApply
    rw [if_neg h0, if_neg h6]

/-- Witness for the amended C2 theorem at concrete inputs. -/
theorem eu868_channel_mask_apply_amended_witness :
    eu868ChannelMaskApply 0 3 65537 = Except.ok 3
      ∧ eu868ChannelMaskApply 6 3 65537 = Except.ok (2 ^ 128 - 1)
      ∧ eu868ChannelMaskApply 9 3 65537 = Except.error () := by
  have h := eu868_channel_mask_apply_amended 0 3 65537 (by norm_num)
  have h6 := eu868_channel_mask_apply_amended 6 3 65537 (by norm_num)
  have h9 := eu868_channel_mask_apply_amended 9 3 65537 (by norm_num)
  refine ⟨?_, h6.2.1 rfl, h9.2.2 (by norm_num) (by norm_num)⟩
  have := (h.1 rfl).1
  simpa using this

/-! ## Theorems for the beacon claims -/

/-- C5.  For every spreading factor, `beacon_bytes(sf)` is 16 plus the
two RFU sizes, whose tables are 0,1,2,3,4 and 3,0,1,2,3 for SF8..SF12,
and `parse_beacon` rejects any input whose length is not exactly
`beacon_bytes(sf)` with `WrongSize{need, actual}` carrying the expected
and the actual length. -/
theorem beacon_sizes_and_wrong_size :
    (∀ sf, beaconBytes sf = 16 + beaconRfu1Bytes sf + beaconRfu2Bytes sf)
      ∧ beaconRfu1Bytes .sf8 = 0 ∧ beaconRfu1Bytes .sf9 = 1 ∧ beaconRfu1Bytes .sf10 = 2
      ∧ beaconRfu1Bytes .sf11 = 3 ∧ beaconRfu1Bytes .sf12 = 4
      ∧ beaconRfu2Bytes .sf8 = 3 ∧ beaconRfu2Bytes .sf9 = 0 ∧ beaconRfu2Bytes .sf10 = 1
      ∧ beaconRfu2Bytes .sf11 = 2 ∧ beaconRfu2Bytes .sf12 = 3
      ∧ ∀ sf (b : List Nat), b.length ≠ beaconBytes sf →
          parseBeacon sf b
            = some (Except.error (BeaconError.wrongSize (beaconBytes sf) b.length)) := by
  refine ⟨fun sf => by cases sf <;> rfl, rfl, rfl, rfl, rfl, rfl, rfl, rfl, rfl, rfl, rfl, ?_⟩
  intro sf b h
  unfold parseBeacon
  rw [if_pos h]

/-- Witness for C5's length-mismatch clause on a concrete input: the
empty byte string against SF8, whose beacon size is 19. -/
theorem beacon_sizes_and_wrong_size_witness :
    parseBeacon Sf.sf8 [] = some (Except.error (BeaconError.wrongSize 19 0)) := by
  have h := beacon_sizes_and_wrong_size.2.2.2.2.2.2.2.2.2.2.2 Sf.sf8 [] (by decide)
  simpa [show beaconBytes Sf.sf8 = 19 by decide] using h

/-- C8.  The SF9 known-answer beacon parses successfully: `Time` is the
little-endian 32-bit value of the bytes `00 00 02 CC` (`0xCC020000`) and
the gateway-specific part is the GPS variant with antenna index 0,
latitude `0x002001` and longitude `0x038100`. -/
theorem beacon_sf9_known_vector :
    parseBeacon Sf.sf9
        [0x00, 0x00, 0x00, 0x00, 0x02, 0xCC, 0xA2, 0x7E,
         0x00, 0x01, 0x20, 0x00, 0x00, 0x81, 0x03, 0xDE, 0x55]
      = some (Except.ok
          { param := 0
            time := u32FromLeBytes [0x00, 0x00, 0x02, 0xCC]
            gwSpecific := .gps .first 0x002001 0x038100 })
      ∧ u32FromLeBytes [0x00, 0x00, 0x02, 0xCC] = 0xCC020000 := by
  exact ⟨by decide, by decide⟩

/-! ## Linearity of the CRC over bitwise XOR

The CRC with zero initial value is linear: the checksum of the XOR of
two equal-length messages is the XOR of their checksums.  Flipping one
bit therefore XORs the checksum with the nonzero checksum of a unit
message, which makes the CRC1 comparison fail. -/

theorem natShiftLeft_xor (x y n : Nat) :
    (x ^^^ y) <<< n = (x <<< n) ^^^ (y <<< n) := by
  apply Nat.eq_of_testBit_eq
  intro i
  simp only [Nat.testBit_shiftLeft, Nat.testBit_xor]
  cases h : decide (i ≥ n) <;> simp

theorem natMod65536_xor (x y : Nat) :
    (x ^^^ y) % 65536 = (x % 65536) ^^^ (y % 65536) := by
  have h : (65536 : Nat) = 2 ^ 16 := by norm_num
  rw [h]
  apply Nat.eq_of_testBit_eq
  intro i
  simp only [Nat.testBit_mod_two_pow, Nat.testBit_xor]
  cases h2 : decide (i < 16) <;> simp

theorem natXor_right_swap (a b c : Nat) : (a ^^^ b) ^^^ c = (a ^^^ c) ^^^ b := by
  apply Nat.eq_of_testBit_eq
  intro i
  simp only [Nat.testBit_xor]
  cases a.testBit i <;> cases b.testBit i <;> cases c.testBit i <;> rfl

theorem natXor_cancel_right (a b c : Nat) : (a ^^^ c) ^^^ (b ^^^ c) = a ^^^ b := by
  apply Nat.eq_of_testBit_eq
  intro i
  simp only [Nat.testBit_xor]
  cases a.testBit i <;> cases b.testBit i <;> cases c.testBit i <;> rfl

theorem crc16Round_xor (x y : Nat) :
    crc16Round (x ^^^ y) = crc16Round x ^^^ crc16Round y := by
  unfold crc16Round
  rw [Nat.testBit_xor, natShiftLeft_xor, natMod65536_xor]
  cases hx : x.testBit 15 <;> cases hy : y.testBit 15 <;> simp [hx, hy] <;>
    · apply Nat.eq_of_testBit_eq
      intro i
      simp only [Nat.testBit_xor]
      cases (x <<< 1 % 65536).testBit i <;> cases (y <<< 1 % 65536).testBit i <;>
        cases (4129 : Nat).testBit i <;> rfl

theorem crc16Byte_xor (c1 c2 b1 b2 : Nat) :
    crc16Byte (c1 ^^^ c2) (b1 ^^^ b2) = crc16Byte c1 b1 ^^^ crc16Byte c2 b2 := by
  have hmix : (c1 ^^^ c2) ^^^ ((b1 ^^^ b2) <<< 8)
      = (c1 ^^^ (b1 <<< 8)) ^^^ (c2 ^^^ (b2 <<< 8)) := by
    rw [natShiftLeft_xor]
    apply Nat.eq_of_testBit_eq
    intro i
    simp only [Nat.testBit_xor]
    cases c1.testBit i <;> cases c2.testBit i <;> cases (b1 <<< 8).testBit i <;>
      cases (b2 <<< 8).testBit i <;> rfl
  unfold crc16Byte
  rw [hmix, crc16Round_xor, crc16Round_xor, crc16Round_xor, crc16Round_xor,
    crc16Round_xor, crc16Round_xor, crc16Round_xor, crc16Round_xor]

theorem crc16_foldl_xor :
    ∀ (m1 m2 : List Nat) (c1 c2 : Nat), m1.length = m2.length →
      (List.zipWith (fun a b => a ^^^ b) m1 m2).foldl crc16Byte (c1 ^^^ c2)
        = m1.foldl crc16Byte c1 ^^^ m2.foldl crc16Byte c2
  | [], [], c1, c2, _ => by simp
  | a :: t1, b :: t2, c1, c2, h => by
    simp only [List.zipWith_cons_cons, List.foldl_cons]
    rw [crc16Byte_xor]
    exact crc16_foldl_xor t1 t2 _ _ (by simpa using h)
  | [], _ :: _, _, _, h => by simp at h
  | _ :: _, [], _, _, h => by simp at h

theorem crc16_zipWith_xor (m1 m2 : List Nat) (h : m1.length = m2.length) :
    crc16 (List.zipWith (fun a b => a ^^^ b) m1 m2) = crc16 m1 ^^^ crc16 m2 := by
  unfold crc16
  simpa using crc16_foldl_xor m1 m2 0 0 h

theorem unitMsg_length (L j v : Nat) : (unitMsg L j v).length = L := by
  simp [unitMsg]

theorem unitMsg_getElem? (L j v i : Nat) :
    (unitMsg L j v)[i]? = if i < L then some (if i = j then v else 0) else none := by
  unfold unitMsg
  rw [List.getElem?_map]
  by_cases h : i < L
  · rw [List.getElem?_range h, if_pos h]
    rfl
  · rw [if_neg h, List.getElem?_eq_none (by simpa using Nat.le_of_not_lt h)]
    rfl

/-- Flipping the bits of `v` inside byte `j` of a message is the XOR of
the message with the corresponding unit message. -/
theorem set_eq_zipWith_unit (l : List Nat) (j v : Nat) (hj : j < l.length) :
    l.set j (l.getD j 0 ^^^ v)
      = List.zipWith (fun a b => a ^^^ b) l (unitMsg l.length j v) := by
  apply List.ext_getElem?
  intro i
  rw [List.getElem?_set]
  simp only [List.getElem?_zipWith, unitMsg_getElem?]
  by_cases hiL : i < l.length
  · rw [List.getElem?_eq_getElem hiL, if_pos hiL]
    by_cases hij : j = i
    · rw [if_pos hij, if_pos (hij ▸ hj), if_pos hij.symm, List.getD_eq_getElem l 0 hj]
      subst hij
      rfl
    · rw [if_neg hij, if_neg (fun h => hij h.symm)]
      simp
  · rw [List.getElem?_eq_none (Nat.le_of_not_lt hiL), if_neg (by omega : ¬j = i),
      if_neg hiL]

theorem getD_take {l : List Nat} {j c : Nat} (hj : j < c) :
    (l.take c).getD j 0 = l.getD j 0 := by
  rw [List.getD_eq_getElem?_getD, List.getD_eq_getElem?_getD, List.getElem?_take,
    if_pos hj]

/-- Flipping bits of byte `j` inside the first `c` bytes XORs the CRC of
the `c`-byte prefix with the CRC of a unit message. -/
theorem crc16_take_flip (bytes : List Nat) (j v c : Nat) (hj : j < c)
    (hc : c ≤ bytes.length) :
    crc16 ((bytes.set j (bytes.getD j 0 ^^^ v)).take c)
      = crc16 (bytes.take c) ^^^ crc16 (unitMsg c j v) := by
  have hlen : (bytes.take c).length = c := by
    rw [List.length_take]
    omega
  have hjlen : j < (bytes.take c).length := by omega
  rw [List.set_take, ← getD_take hj, set_eq_zipWith_unit _ j v hjlen, hlen,
    crc16_zipWith_xor _ _ (by rw [hlen, unitMsg_length])]

/-- The CRC of every unit message arising from a beacon CRC1 region
(lengths 5 through 9, any byte position, any single bit) is nonzero. -/
theorem crc16_unitMsg_ne_zero :
    ∀ L < 10, 5 ≤ L → ∀ j < L, ∀ k < 8, crc16 (unitMsg L j (2 ^ k)) ≠ 0 := by
  decide

/-- A slice that starts past the modified position is unchanged. -/
theorem slice_set_outside {l : List Nat} {j v s c : Nat} (h : j < s) :
    ((l.set j v).drop s).take c = (l.drop s).take c := by
  apply List.ext_getElem?
  intro n
  rw [List.getElem?_take, List.getElem?_take]
  by_cases hn : n < c
  · rw [if_pos hn, if_pos hn, List.getElem?_drop, List.getElem?_drop,
      List.getElem?_set_ne (by omega)]
  · rw [if_neg hn, if_neg hn]

theorem drop_set_outside {l : List Nat} {j v s : Nat} (h : j < s) :
    (l.set j v).drop s = l.drop s := by
  apply List.ext_getElem?
  intro n
  rw [List.getElem?_drop, List.getElem?_drop, List.getElem?_set_ne (by omega)]

/-- Success of the closed-form beacon parse forces the length check and
both CRC comparisons to pass. -/
theorem parseBeaconSpec_ok_inv {sf : Sf} {bytes : List Nat} {B : Beacon}
    (h : parseBeaconSpec sf bytes = Except.ok B) :
    bytes.length = beaconBytes sf
      ∧ u16FromLeBytes ((bytes.drop (beaconRfu1Bytes sf + 5)).take 2)
          = crc16 (bytes.take (beaconRfu1Bytes sf + 5))
      ∧ u16FromLeBytes (bytes.drop (beaconRfu1Bytes sf + 14 + beaconRfu2Bytes sf))
          = crc16 ((bytes.drop (beaconRfu1Bytes sf + 7)).take (7 + beaconRfu2Bytes sf)) := by
  unfold parseBeaconSpec at h
  by_cases h1 : bytes.length ≠ beaconBytes sf
  · rw [if_pos h1] at h
    exact absurd h (by simp)
  · rw [if_neg h1] at h
    by_cases h2 : u16FromLeBytes ((bytes.drop (beaconRfu1Bytes sf + 5)).take 2)
        ≠ crc16 (bytes.take (beaconRfu1Bytes sf + 5))
    · rw [if_pos h2] at h
      exact absurd h (by simp)
    · rw [if_neg h2] at h
      by_cases h3 : u16FromLeBytes (bytes.drop (beaconRfu1Bytes sf + 14 + beaconRfu2Bytes sf))
          ≠ crc16 ((bytes.drop (beaconRfu1Bytes sf + 7)).take (7 + beaconRfu2Bytes sf))
      · rw [if_pos h3] at h
        exact absurd h (by simp)
      · exact ⟨by omega, by omega, by omega⟩

/-- C4.  For every beacon that parses successfully: the wire CRC1 (the
two little-endian bytes after Time) equals the checksum over exactly
`RFU1 ‖ Param ‖ Time` (the first `rfu1_bytes(sf) + 5` bytes) and the
wire CRC2 equals the checksum over exactly `GwSpecific ‖ RFU2`; and
flipping any single bit (bit `k` of byte `j`) inside the CRC1-covered
region makes `parse_beacon` return `Crc1Wrong`, while the computed CRC2
value over its region is unchanged. -/
theorem beacon_crc_regions_and_bit_flip (sf : Sf) (bytes : List Nat) (B : Beacon)
    (j k : Nat) (hok : parseBeacon sf bytes = some (Except.ok B))
    (hj : j < beaconRfu1Bytes sf + 5) (hk : k < 8) :
    u16FromLeBytes ((bytes.drop (beaconRfu1Bytes sf + 5)).take 2)
        = crc16 (bytes.take (beaconRfu1Bytes sf + 5))
      ∧ u16FromLeBytes (bytes.drop (beaconRfu1Bytes sf + 14 + beaconRfu2Bytes sf))
        = crc16 ((bytes.drop (beaconRfu1Bytes sf + 7)).take (7 + beaconRfu2Bytes sf))
      ∧ parseBeacon sf (bytes.set j (bytes.getD j 0 ^^^ 2 ^ k))
        = some (Except.error BeaconError.crc1Wrong)
      ∧ crc16 (((bytes.set j (bytes.getD j 0 ^^^ 2 ^ k)).drop (beaconRfu1Bytes sf + 7)).take
            (7 + beaconRfu2Bytes sf))
        = crc16 ((bytes.drop (beaconRfu1Bytes sf + 7)).take (7 + beaconRfu2Bytes sf)) := by
  have hspec : parseBeaconSpec sf bytes = Except.ok B := by
    have h := parseBeacon_eq_spec sf bytes
    rw [hok] at h
    exact (Option.some.inj h).symm
  obtain ⟨hlen, hcrc1, hcrc2⟩ := parseBeaconSpec_ok_inv hspec
  have hbase : beaconBytes sf = 16 + beaconRfu1Bytes sf + beaconRfu2Bytes sf := by
    cases sf <;> rfl
  have hr1 : beaconRfu1Bytes sf ≤ 4 := by cases sf <;> decide
  set f := bytes.set j (bytes.getD j 0 ^^^ 2 ^ k) with hf
  have hflen : f.length = bytes.length := List.length_set ..
  have hslice2 : (f.drop (beaconRfu1Bytes sf + 7)).take (7 + beaconRfu2Bytes sf)
      = (bytes.drop (beaconRfu1Bytes sf + 7)).take (7 + beaconRfu2Bytes sf) :=
    slice_set_outside (by omega)
  have hwire1 : (f.drop (beaconRfu1Bytes sf + 5)).take 2
      = (bytes.drop (beaconRfu1Bytes sf + 5)).take 2 := slice_set_outside (by omega)
  have hflip : crc16 (f.take (beaconRfu1Bytes sf + 5))
      = crc16 (bytes.take (beaconRfu1Bytes sf + 5))
          ^^^ crc16 (unitMsg (beaconRfu1Bytes sf + 5) j (2 ^ k)) :=
    crc16_take_flip bytes j (2 ^ k) _ hj (by omega)
  have hU : crc16 (unitMsg (beaconRfu1Bytes sf + 5) j (2 ^ k)) ≠ 0 :=
    crc16_unitMsg_ne_zero _ (by omega) (by omega) j (by omega) k hk
  have hNe : u16FromLeBytes ((bytes.drop (beaconRfu1Bytes sf + 5)).take 2)
      ≠ crc16 (f.take (beaconRfu1Bytes sf + 5)) := by
    rw [hflip, hcrc1]
    intro heq
    apply hU
    have h2 := congrArg
      (fun z => crc16 (bytes.take (beaconRfu1Bytes sf + 5)) ^^^ z) heq
    simpa [← Nat.xor_assoc, Nat.xor_self, Nat.zero_xor] using h2.symm
  refine ⟨hcrc1, hcrc2, ?_, by rw [hslice2]⟩
  rw [parseBeacon_eq_spec]
  congr 1
  unfold parseBeaconSpec
  simp only []
  rw [if_neg (by simp [hflen, hlen]), hwire1, if_pos hNe]

/-- Witness for C4 at a concrete input: flipping bit 0 of byte 0 of the
known-good SF9 beacon yields `Crc1Wrong`. -/
theorem beacon_crc_regions_and_bit_flip_witness :
    parseBeacon Sf.sf9
        (([0x00, 0x00, 0x00, 0x00, 0x02, 0xCC, 0xA2, 0x7E,
           0x00, 0x01, 0x20, 0x00, 0x00, 0x81, 0x03, 0xDE, 0x55] : List Nat).set 0
          (([0x00, 0x00, 0x00, 0x00, 0x02, 0xCC, 0xA2, 0x7E,
             0x00, 0x01, 0x20, 0x00, 0x00, 0x81, 0x03, 0xDE, 0x55] : List Nat).getD 0 0 ^^^ 2 ^ 0))
      = some (Except.error BeaconError.crc1Wrong) :=
  (beacon_crc_regions_and_bit_flip Sf.sf9
      [0x00, 0x00, 0x00, 0x00, 0x02, 0xCC, 0xA2, 0x7E,
       0x00, 0x01, 0x20, 0x00, 0x00, 0x81, 0x03, 0xDE, 0x55]
      { param := 0
        time := 0xCC020000
        gwSpecific := .gps .first 0x002001 0x038100 }
      0 0 (by decide) (by decide) (by decide)).2.2.1

/-! ## Theorems for the frame-codec claims -/

theorem macHeader?_eq (b : List Nat) (h : 1 ≤ b.length) :
    macHeader? b = some (macHeaderOfByte (b.getD 0 0)) := by
  unfold macHeader?
  rw [slice?_of_le (by omega) (by omega)]
  show some (macHeaderOfByte (((b.drop 0).take (1 - 0)).getD 0 0)) = _
  rw [List.drop_zero, getD_take (by omega)]

theorem payloadBytes?_eq (b : List Nat) (h : 12 ≤ b.length) :
    payloadBytes? b = some ((b.drop 1).take (b.length - 5)) := by
  unfold payloadBytes?
  rw [if_neg (by omega), slice?_of_le (by omega) (by omega)]
  have e : b.length - 4 - 1 = b.length - 5 := by omega
  rw [e]

theorem mic?_eq (b : List Nat) (h : 12 ≤ b.length) :
    mic? b = some (b.drop (b.length - 4)) := by
  unfold mic?
  rw [if_neg (by omega), slice?_to_end (by omega)]

theorem phyFromBytes_ok_length {b p : List Nat} (h : phyFromBytes b = Except.ok p) :
    p = b ∧ 12 ≤ b.length := by
  unfold phyFromBytes at h
  by_cases hlen : b.length < 1 + 7 + 4
  · rw [if_pos hlen] at h
    exact absurd h (by simp)
  · rw [if_neg hlen] at h
    exact ⟨(Except.ok.inj h).symm, by omega⟩

/-- C10.  `PhyPayload::from_bytes` fails with the too-small error
carrying `have = len` and `need = 12` exactly when the input is shorter
than 12 bytes, and succeeds with no other validation otherwise; on a
decoded frame, `mac_header()` is decoded from byte 0, `payload_bytes()`
is `bytes[1..len-4]` and `mic()` is the last four bytes. -/
theorem phy_from_bytes_and_accessors (b : List Nat) :
    (b.length < 12 →
        phyFromBytes b = Except.error (.smallerThanMinSize b.length 12))
      ∧ (12 ≤ b.length →
          phyFromBytes b = Except.ok b
            ∧ macHeader? b = some (macHeaderOfByte (b.getD 0 0))
            ∧ payloadBytes? b = some ((b.drop 1).take (b.length - 5))
            ∧ mic? b = some (b.drop (b.length - 4))
            ∧ (b.drop (b.length - 4)).length = 4) := by
  constructor
  · intro h
    unfold phyFromBytes
    rw [if_pos (by omega)]
  · intro h
    refine ⟨?_, macHeader?_eq b (by omega), payloadBytes?_eq b h, mic?_eq b h, ?_⟩
    · unfold phyFromBytes
      rw [if_neg (by omega)]
    · rw [List.length_drop]
      omega

/-- Witness for C10 at concrete inputs: an 11-byte buffer is rejected
with `have = 11, need = 12`, and a 12-byte buffer decodes with the three
accessor views. -/
theorem phy_from_bytes_and_accessors_witness :
    phyFromBytes (List.replicate 11 7) = Except.error (.smallerThanMinSize 11 12)
      ∧ phyFromBytes (List.replicate 12 7) = Except.ok (List.replicate 12 7)
      ∧ mic? (List.replicate 12 7) = some ((List.replicate 12 7).drop 8) := by
  refine ⟨?_, ?_, ?_⟩
  · have h := (phy_from_bytes_and_accessors (List.replicate 11 7)).1 (by decide)
    simpa using h
  · exact ((phy_from_bytes_and_accessors (List.replicate 12 7)).2 (by decide)).1
  · have h := ((phy_from_bytes_and_accessors (List.replicate 12 7)).2 (by decide)).2.2.2.1
    simpa using h

/-- C3.  The claim says `cf_list()` is `Some` of the trailing 16 bytes
exactly on the 28-byte form and `None` on the 12-byte form.  The code
has the comparison inverted: both byte strings below are accepted by
`JoinAccept::from_bytes`, yet the 28-byte payload yields `None` and the
12-byte payload yields `Some` of an empty slice (`&bytes[12..]` of a
12-byte buffer). -/
theorem cf_list_inverted :
    joinAcceptFromBytes (List.replicate 28 0) = Except.ok (List.replicate 28 0)
      ∧ cfList (List.replicate 28 0) = none
      ∧ joinAcceptFromBytes (List.replicate 12 0) = Except.ok (List.replicate 12 0)
      ∧ cfList (List.replicate 12 0) = some [] := by
  exact ⟨by decide, by decide, by decide, by decide⟩

/-- C6.  The three parsing operations are total for every input: the
beacon parser and (on every successfully decoded frame) the payload
parser never reach a panic path, and `from_bytes` itself either accepts
or reports the too-small error. -/
theorem parsers_never_panic :
    (∀ sf (b : List Nat), (parseBeacon sf b).isSome)
      ∧ (∀ b : List Nat, phyFromBytes b = Except.ok b
          ∨ phyFromBytes b = Except.error (.smallerThanMinSize b.length 12))
      ∧ (∀ b p : List Nat, phyFromBytes b = Except.ok p → (payload? p).isSome) := by
  refine ⟨fun sf b => ?_, fun b => ?_, fun b p h => ?_⟩
  · rw [parseBeacon_eq_spec]
    rfl
  · unfold phyFromBytes
    by_cases h : b.length < 1 + 7 + 4
    · rw [if_pos h]
      right
      rfl
    · rw [if_neg h]
      left
      rfl
  · obtain ⟨rfl, hlen⟩ := phyFromBytes_ok_length h
    unfold payload?
    rw [macHeader?_eq p (by omega)]
    simp only [Option.some_bind]
    by_cases hmaj : (macHeaderOfByte (p.getD 0 0)).major ≠ 0
    · rw [if_pos hmaj]
      rfl
    · rw [if_neg hmaj, payloadBytes?_eq p hlen]
      simp only [Option.some_bind]
      cases (macHeaderOfByte (p.getD 0 0)).ftype <;> rfl

/-- Witness for C6's frame-decode clause at a concrete input. -/
theorem parsers_never_panic_witness :
    (payload? (List.replicate 12 7)).isSome := by
  exact parsers_never_panic.2.2 (List.replicate 12 7) (List.replicate 12 7) (by decide)

/-- C9.  On every decoded frame, `payload()` rejects a nonzero two-bit
major version with `UnknownMajor`; otherwise it dispatches on the frame
type: Join-Request parses iff the payload region is exactly 18 bytes
(else `SizeMismatch{have, need}`), Join-Accept iff it is exactly 12 or
28 bytes (else `SizeMismatch{have}`), and every other frame type wraps
the payload region as a MAC-payload view with no further validation. -/
theorem payload_dispatch (b : List Nat) (hphy : phyFromBytes b = Except.ok b) :
    ((macHeaderOfByte (b.getD 0 0)).major ≠ 0 →
        payload? b = some (Except.error (.unknownMajor (macHeaderOfByte (b.getD 0 0)).major)))
      ∧ ((macHeaderOfByte (b.getD 0 0)).major = 0 →
          ((macHeaderOfByte (b.getD 0 0)).ftype = .joinRequest →
              (((b.drop 1).take (b.length - 5)).length = 18 →
                  payload? b
                    = some (Except.ok (.joinRequest ((b.drop 1).take (b.length - 5)))))
                ∧ (((b.drop 1).take (b.length - 5)).length ≠ 18 →
                  payload? b = some (Except.error (.joinRequestParseError
                    (.sizeMismatch ((b.drop 1).take (b.length - 5)).length 18)))))
            ∧ ((macHeaderOfByte (b.getD 0 0)).ftype = .joinAccept →
              ((((b.drop 1).take (b.length - 5)).length = 12
                  ∨ ((b.drop 1).take (b.length - 5)).length = 28) →
                  payload? b
                    = some (Except.ok (.joinAccept ((b.drop 1).take (b.length - 5)))))
                ∧ (((b.drop 1).take (b.length - 5)).length ≠ 12 →
                    ((b.drop 1).take (b.length - 5)).length ≠ 28 →
                  payload? b = some (Except.error (.joinAcceptParseError
                    (.sizeMismatch ((b.drop 1).take (b.length - 5)).length)))))
            ∧ ((macHeaderOfByte (b.getD 0 0)).ftype ≠ .joinRequest →
                (macHeaderOfByte (b.getD 0 0)).ftype ≠ .joinAccept →
                  payload? b
                    = some (Except.ok (.macPayload ((b.drop 1).take (b.length - 5)))))) := by
  obtain ⟨_, hlen⟩ := phyFromBytes_ok_length hphy
  constructor
  · intro hmaj
    unfold payload?
    rw [macHeader?_eq b (by omega)]
    simp only [Option.some_bind]
    rw [if_pos hmaj]
  · intro hmaj
    have hstep : payload? b
        = match (macHeaderOfByte (b.getD 0 0)).ftype with
          | FrameType.joinRequest => some (joinRequestResult ((b.drop 1).take (b.length - 5)))
          | FrameType.joinAccept => some (joinAcceptResult ((b.drop 1).take (b.length - 5)))
          | _ => some (Except.ok (.macPayload ((b.drop 1).take (b.length - 5)))) := by
      unfold payload?
      rw [macHeader?_eq b (by omega)]
      simp only [Option.some_bind]
      rw [if_neg (by rw [hmaj]; decide), payloadBytes?_eq b hlen]
      simp only [Option.some_bind]
    refine ⟨fun hft => ⟨fun hsz => ?_, fun hsz => ?_⟩,
      fun hft => ⟨fun hsz => ?_, fun hsz1 hsz2 => ?_⟩, fun hn1 hn2 => ?_⟩
    · have hjr : joinRequestFromBytes ((b.drop 1).take (b.length - 5))
          = Except.ok ((b.drop 1).take (b.length - 5)) := by
        unfold joinRequestFromBytes
        rw [if_neg (by omega)]
      rw [hstep, hft]
      show some (joinRequestResult ((b.drop 1).take (b.length - 5))) = _
      unfold joinRequestResult
      rw [hjr]
    · have hjr : joinRequestFromBytes ((b.drop 1).take (b.length - 5))
          = Except.error (.sizeMismatch ((b.drop 1).take (b.length - 5)).length 18) := by
        unfold joinRequestFromBytes
        rw [if_pos (by omega)]
      rw [hstep, hft]
      show some (joinRequestResult ((b.drop 1).take (b.length - 5))) = _
      unfold joinRequestResult
      rw [hjr]
    · have hja : joinAcceptFromBytes ((b.drop 1).take (b.length - 5))
          = Except.ok ((b.drop 1).take (b.length - 5)) := by
        unfold joinAcceptFromBytes
        rw [if_neg (by omega)]
      rw [hstep, hft]
      show some (joinAcceptResult ((b.drop 1).take (b.length - 5))) = _
      unfold joinAcceptResult
      rw [hja]
    · have hja : joinAcceptFromBytes ((b.drop 1).take (b.length - 5))
          = Except.error (.sizeMismatch ((b.drop 1).take (b.length - 5)).length) := by
        unfold joinAcceptFromBytes
        rw [if_pos (by omega)]
      rw [hstep, hft]
      show some (joinAcceptResult ((b.drop 1).take (b.length - 5))) = _
      unfold joinAcceptResult
      rw [hja]
    · rw [hstep]
      cases hft : (macHeaderOfByte (b.getD 0 0)).ftype
      · exact absurd hft hn1
      · exact absurd hft hn2
      all_goals rfl

/-- Witness for C9 at a concrete input: the 23-byte Join-Request frame
has major 0, frame type Join-Request, and an 18-byte payload region that
parses successfully. -/
theorem payload_dispatch_witness :
    payload? [0x00, 0xDC, 0x00, 0x00, 0xD0, 0x7E, 0xD5, 0xB3, 0x70, 0x1E, 0x6F, 0xED,
        0xF5, 0x7C, 0xEE, 0xAF, 0x00, 0xC8, 0x86, 0x03, 0x0A, 0xF2, 0xC9]
      = some (Except.ok (.joinRequest
          ((([0x00, 0xDC, 0x00, 0x00, 0xD0, 0x7E, 0xD5, 0xB3, 0x70, 0x1E, 0x6F, 0xED,
              0xF5, 0x7C, 0xEE, 0xAF, 0x00, 0xC8, 0x86, 0x03, 0x0A, 0xF2, 0xC9] : List Nat).drop 1).take 18))) := by
  have h := ((payload_dispatch
      [0x00, 0xDC, 0x00, 0x00, 0xD0, 0x7E, 0xD5, 0xB3, 0x70, 0x1E, 0x6F, 0xED,
       0xF5, 0x7C, 0xEE, 0xAF, 0x00, 0xC8, 0x86, 0x03, 0x0A, 0xF2, 0xC9]
      (by decide)).2 (by decide)).1 (by decide) |>.1 (by decide)
  simpa using h

/-- C7.  For every decoded frame whose frame type is Join-Request,
`mic_expected(app_key)` is the first four bytes of the AES-128-CMAC of
all frame bytes but the four-byte MIC trailer (which for a well-formed
Join-Request frame is `MHDR ‖ JoinEUI ‖ DevEUI ‖ DevNonce`); and on the
known Join-Request vector with the published AppKey, the frame decodes
as a Join-Request and the expected MIC equals the wire MIC
`03 0A F2 C9`. -/
theorem mic_expected_join_request (key b : List Nat) (hkey : key.length = 16)
    (hphy : phyFromBytes b = Except.ok b)
    (hft : (macHeaderOfByte (b.getD 0 0)).ftype = .joinRequest) :
    micExpected? key b = some ((cmacTag key (b.take (b.length - 4))).take 4)
      ∧ phyFromBytes [0x00, 0xDC, 0x00, 0x00, 0xD0, 0x7E, 0xD5, 0xB3, 0x70, 0x1E, 0x6F,
          0xED, 0xF5, 0x7C, 0xEE, 0xAF, 0x00, 0xC8, 0x86, 0x03, 0x0A, 0xF2, 0xC9]
          = Except.ok [0x00, 0xDC, 0x00, 0x00, 0xD0, 0x7E, 0xD5, 0xB3, 0x70, 0x1E, 0x6F,
              0xED, 0xF5, 0x7C, 0xEE, 0xAF, 0x00, 0xC8, 0x86, 0x03, 0x0A, 0xF2, 0xC9]
      ∧ (macHeaderOfByte 0x00).ftype = .joinRequest
      ∧ micExpected?
          [0xB6, 0xB5, 0x3F, 0x4A, 0x16, 0x8A, 0x7A, 0x88, 0xBD, 0xF7, 0xEA, 0x13,
           0x5C, 0xE9, 0xCF, 0xCA]
          [0x00, 0xDC, 0x00, 0x00, 0xD0, 0x7E, 0xD5, 0xB3, 0x70, 0x1E, 0x6F, 0xED,
           0xF5, 0x7C, 0xEE, 0xAF, 0x00, 0xC8, 0x86, 0x03, 0x0A, 0xF2, 0xC9]
          = some [0x03, 0x0A, 0xF2, 0xC9]
      ∧ mic? [0x00, 0xDC, 0x00, 0x00, 0xD0, 0x7E, 0xD5, 0xB3, 0x70, 0x1E, 0x6F, 0xED,
           0xF5, 0x7C, 0xEE, 0xAF, 0x00, 0xC8, 0x86, 0x03, 0x0A, 0xF2, 0xC9]
          = some [0x03, 0x0A, 0xF2, 0xC9] := by
  obtain ⟨_, hlen⟩ := phyFromBytes_ok_length hphy
  refine ⟨?_, by decide, by decide, by decide, by decide⟩
  unfold micExpected?
  rw [macHeader?_eq b (by omega)]
  simp only [Option.some_bind]
  rw [hft]
  simp only []
  rw [if_neg (by omega), if_neg (by omega)]

/-- Witness for C7: the universal clause applied to the known
Join-Request vector itself. -/
theorem mic_expected_join_request_witness :
    micExpected?
        [0xB6, 0xB5, 0x3F, 0x4A, 0x16, 0x8A, 0x7A, 0x88, 0xBD, 0xF7, 0xEA, 0x13,
         0x5C, 0xE9, 0xCF, 0xCA]
        [0x00, 0xDC, 0x00, 0x00, 0xD0, 0x7E, 0xD5, 0xB3, 0x70, 0x1E, 0x6F, 0xED,
         0xF5, 0x7C, 0xEE, 0xAF, 0x00, 0xC8, 0x86, 0x03, 0x0A, 0xF2, 0xC9]
      = some ((cmacTag
          [0xB6, 0xB5, 0x3F, 0x4A, 0x16, 0x8A, 0x7A, 0x88, 0xBD, 0xF7, 0xEA, 0x13,
           0x5C, 0xE9, 0xCF, 0xCA]
          (([0x00, 0xDC, 0x00, 0x00, 0xD0, 0x7E, 0xD5, 0xB3, 0x70, 0x1E, 0x6F, 0xED,
             0xF5, 0x7C, 0xEE, 0xAF, 0x00, 0xC8, 0x86, 0x03, 0x0A, 0xF2, 0xC9] : List Nat).take
            (23 - 4))).take 4) := by
  have h := (mic_expected_join_request
      [0xB6, 0xB5, 0x3F, 0x4A, 0x16, 0x8A, 0x7A, 0x88, 0xBD, 0xF7, 0xEA, 0x13,
       0x5C, 0xE9, 0xCF, 0xCA]
      [0x00, 0xDC, 0x00, 0x00, 0xD0, 0x7E, 0xD5, 0xB3, 0x70, 0x1E, 0x6F, 0xED,
       0xF5, 0x7C, 0xEE, 0xAF, 0x00, 0xC8, 0x86, 0x03, 0x0A, 0xF2, 0xC9]
      (by decide) (by decide) (by decide)).1
  simpa using h

end LoraWan
